import Mathlib

/-!
Verification development for the mattermost-webapp-performance-profiler
repository.  The TypeScript sources are shallowly embedded: JavaScript
objects become association lists of string keys and values, the
file-system side effects become explicit event logs parameterised by a
set of failing paths, and the timer/callback loops become step functions
folded over explicit event traces.  Numbers are modelled as rationals
(all timestamps in the code are integer milliseconds from Date.now(),
for which the toFixed-based conversions are exact).
-/

namespace Profiler

/-! ## JavaScript values and objects

A JS object is an association list of string keys in insertion order.
`Value.undef` models a property that is present but `undefined`
(JS distinguishes this from an absent key for `in`/`Object.keys`,
and `JSON.stringify` drops such keys). `Value.nan` models `NaN`,
which arises only outside the measurement-record domain. -/

inductive Value where
  | str : String → Value
  | num : Rat → Value
  | undef : Value
  | nan : Value
deriving DecidableEq, Repr

abbrev JRecord := List (String × Value)

/-- Property access `r[k]`: the first binding of `k`, if any. -/
def lookupField (r : JRecord) (k : String) : Option Value :=
  (r.find? (fun p => p.1 == k)).map (fun p => p.2)

/-- Keys of the record, `Object.keys r`, in insertion order. -/
def recordKeys (r : JRecord) : List String := r.map (fun p => p.1)

/-- Spread-update `{...r, k: v}`: overwrite `k` in place if present,
otherwise append it at the end. -/
def setField (r : JRecord) (k : String) (v : Value) : JRecord :=
  if r.any (fun p => p.1 == k) then
    r.map (fun p => if p.1 == k then (k, v) else p)
  else r ++ [(k, v)]

/-! ## CSV serialization (src/toFile.ts and measurers/toFile.ts, `saveToCsv`)

Cell rendering from the source:
`typeof value === 'string' ? `"${value}"` : (value ?? '')`,
where `item[header]` of an absent key is `undefined`.
Numeric rendering (the implicit number-to-string of `join`) is kept
abstract as the rational's `toString`; no claim inspects digit strings. -/

def renderCell : Option Value → String
  | some (Value.str s) => "\"" ++ s ++ "\""
  | some (Value.num q) => toString q
  | some Value.undef => ""
  | some Value.nan => "NaN"
  | none => ""

/-- Header selection, `csvHeaders = data.length > 0 ? Object.keys(data[0]) : []`:
headers come from the FIRST record only. -/
def csvHeaders : List JRecord → List String
  | [] => []
  | r :: _ => recordKeys r

/-- One data row: the record's rendered value for each header field,
joined by commas. -/
def csvRow (headers : List String) (r : JRecord) : String :=
  String.intercalate "," (headers.map (fun h => renderCell (lookupField r h)))

/-- Data rows, `dataRows = data.map(item => ...)`. -/
def csvDataRows (data : List JRecord) : List String :=
  data.map (csvRow (csvHeaders data))

/-- The line list `[headerRow, ...dataRows]` before the final `join('\n')`. -/
def csvLines (data : List JRecord) : List String :=
  String.intercalate "," (csvHeaders data) :: csvDataRows data

/-- File content `csvContent = [headerRow, ...dataRows].join('\n')` as written to the file. -/
def saveToCsvContent (data : List JRecord) : String :=
  String.intercalate "\n" (csvLines data)

/-- The two-record list exhibiting field loss: the second record's field
`"b"` does not occur in the first record, so `saveToCsv` gives it no
column and its value never reaches the file. -/
def csvLossData : List JRecord :=
  [ [("a", Value.num 1)],
    [("a", Value.num 1), ("b", Value.num 2)] ]

/-! ## convertTimestampsToSeconds (measurers/toFile.ts)

`parseFloat((x / 1000).toFixed(3))` rounds to three decimals; for the
integer-millisecond timestamps produced by `Date.now()` the value is
exact (`x * 1000` below is then an integer).  A record without a numeric
`timestamp` would yield `NaN` in JS; string-valued timestamps do not
occur in measurement records and are mapped to `NaN` as well. -/

def roundTo3 (q : Rat) : Rat := ((round (q * 1000) : Int) : Rat) / 1000

def tsSecValue (r : JRecord) : Value :=
  match lookupField r "timestamp" with
  | some (Value.num q) => Value.num (roundTo3 (q / 1000))
  | _ => Value.nan

def diffSecValue (r : JRecord) : Value :=
  match lookupField r "diffTimestamp" with
  | some (Value.num q) => Value.num (roundTo3 (q / 1000))
  | some Value.undef => Value.undef
  | none => Value.undef
  | _ => Value.nan

/-- Spread update `{...m, timestamp_sec: ..., diffTimestamp_sec: ...}` for one record. -/
def convertRecord (r : JRecord) : JRecord :=
  setField (setField r "timestamp_sec" (tsSecValue r)) "diffTimestamp_sec" (diffSecValue r)

def convertTimestampsToSeconds (measurements : List JRecord) : List JRecord :=
  measurements.map convertRecord

/-- The keys `JSON.stringify` serializes: keys whose value is present
and not `undefined` (`undefined`-valued properties are dropped). -/
def jsonFieldKeys (r : JRecord) : List String :=
  (r.filter (fun p => !(p.2 == Value.undef))).map (fun p => p.1)

/-! ## measureMemoryUsage (measurers/memory.ts)

`Performance.getMetrics` returns a list of named numeric metrics; the
heap size is `find(m => m.name === 'JSHeapTotalSize')?.value || 0`
(a present metric with value 0 and an absent metric both give 0,
so `getD 0` coincides with the source's `|| 0` on the record domain),
then converted to MB and rounded via `toFixed(2)`. -/

structure PerfMetric where
  name : String
  value : Rat
deriving DecidableEq, Repr

/-- What one call to `measureMemoryUsage` returns before the scenarios
decorate it: `{heapTotalMB, timestamp: Date.now()}`. -/
structure MemSample where
  heapTotalMB : Rat
  timestamp : Int
deriving DecidableEq, Repr

def roundTo2 (q : Rat) : Rat := ((round (q * 100) : Int) : Rat) / 100

def measureMemoryUsage (metrics : List PerfMetric) (nowMs : Int) : MemSample :=
  let heapTotal : Rat :=
    ((metrics.find? (fun m => m.name == "JSHeapTotalSize")).map (fun m => m.value)).getD 0
  { heapTotalMB := roundTo2 (heapTotal / 1024 / 1024), timestamp := nowMs }

/-! ## The measurement record of the scenarios (measurers/memory.ts
`MemoryMetrics`), with the optional decorations the scenarios add. -/

structure MemoryMetrics where
  heapTotalMB : Rat
  timestamp : Int
  diffTimestamp : Option Int := none
  channelName : Option String := none
  channelAriaLabel : Option String := none
  channelId : Option String := none
deriving DecidableEq, Repr

/-! ## monitorMemoryUsage / measureMemoryUsagePeriodically

The while-loop samples until the deadline passes; the sequence of
samples actually taken is abstracted as the input list.  Each iteration
sets `diffTimestamp` to 0 for the first measurement and to
`timestamp - measurements[0].timestamp` afterwards, then appends. -/

def firstTimestamp : List MemoryMetrics → Int
  | [] => 0
  | m :: _ => m.timestamp

/-- One loop iteration: decorate the fresh sample and push it. -/
def monitorStep (acc : List MemoryMetrics) (s : MemSample) : List MemoryMetrics :=
  let diff : Int := if acc.isEmpty then 0 else s.timestamp - firstTimestamp acc
  acc ++ [{ heapTotalMB := s.heapTotalMB, timestamp := s.timestamp,
            diffTimestamp := some diff }]

def monitorMemoryUsage (samples : List MemSample) : List MemoryMetrics :=
  samples.foldl monitorStep []

/-- The specification-shaped form of the loop's output: every record's
`diffTimestamp` is its distance from the first record's timestamp,
and the first record's is literally 0. -/
def monitorSpec : List MemSample → List MemoryMetrics
  | [] => []
  | s0 :: rest =>
      { heapTotalMB := s0.heapTotalMB, timestamp := s0.timestamp,
        diffTimestamp := some 0 } ::
      rest.map (fun s =>
        { heapTotalMB := s.heapTotalMB, timestamp := s.timestamp,
          diffTimestamp := some (s.timestamp - s0.timestamp) })

/-! ## Frame-rate sampling

Two in-page loops exist in the sources.

`measurers/frameRate.ts` installs a `requestAnimationFrame` callback
that only increments `window.__frameCount`, and a `__calculateFPS`
function (invoked from Node every 100 ms) that emits a sample
`Math.round(frameCount / elapsedSinceLastSample * 1000)` and resets the
counter.  Times are rationals (performance.now() values); the 100 ms
driving interval guarantees strictly increasing sample times, so the
zero-denominator case (where JS would give `Infinity` and the rational
model gives 0) does not arise on the modelled domain.

The variant embedded in src/index.ts (`__refreshFrameRateLoop`) instead
keeps a sliding array of frame times, prunes entries older than one
second on every animation frame, and every 500 ms records the length of
that array as the frame rate; nothing is reset to zero. -/

structure FRMeasurement where
  timestamp : Int
  diffTimestamp : Int
  frameRate : Int
deriving DecidableEq, Repr

structure FPSState where
  frameCount : Nat
  lastFrameTimestamp : Rat
  frameRateStartTime : Rat
  measuring : Bool
  frameRateData : List FRMeasurement
deriving DecidableEq, Repr

def initFPSState (t0 : Rat) : FPSState :=
  { frameCount := 0, lastFrameTimestamp := t0, frameRateStartTime := t0,
    measuring := true, frameRateData := [] }

/-- The rAF callback `countFrame`. -/
def countFrame (st : FPSState) : FPSState :=
  if st.measuring then { st with frameCount := st.frameCount + 1 } else st

/-- The browser function `window.__calculateFPS`, called with the current `performance.now()`
and `Date.now()` values. -/
def calculateFPS (st : FPSState) (now : Rat) (dateNow : Int) : FPSState :=
  if st.measuring then
    let fps : Int := round ((st.frameCount : Rat) / (now - st.lastFrameTimestamp) * 1000)
    { st with
      frameRateData := st.frameRateData ++
        [{ timestamp := dateNow, diffTimestamp := round (now - st.frameRateStartTime),
           frameRate := fps }],
      frameCount := 0,
      lastFrameTimestamp := now }
  else st

inductive FPSEvent where
  | frame
  | calc (now : Rat) (dateNow : Int)
deriving Repr

def fpsStep (st : FPSState) : FPSEvent → FPSState
  | FPSEvent.frame => countFrame st
  | FPSEvent.calc now dateNow => calculateFPS st now dateNow

def runFPS (st : FPSState) (evs : List FPSEvent) : FPSState :=
  evs.foldl fpsStep st

/-- A sampling trace in segmented form: each entry `(f, now, dateNow)`
stands for `f` animation frames followed by one `__calculateFPS` call at
time `now`. -/
def toFPSEvents (trace : List (Nat × Rat × Int)) : List FPSEvent :=
  trace.flatMap (fun e =>
    List.replicate e.1 FPSEvent.frame ++ [FPSEvent.calc e.2.1 e.2.2])

/-- The claimed sample values: each sample is the frame count since the
previous sample divided by the elapsed time since the previous sample,
scaled to per-second and rounded; the carried count is reset to 0. -/
def fpsSampleSpec (t0 : Rat) : Nat → Rat → List (Nat × Rat × Int) → List FRMeasurement
  | _, _, [] => []
  | c0, last0, e :: rest =>
      { timestamp := e.2.2,
        diffTimestamp := round (e.2.1 - t0),
        frameRate := round (((c0 + e.1 : Nat) : Rat) / (e.2.1 - last0) * 1000) } ::
      fpsSampleSpec t0 0 e.2.1 rest

/-! The sliding-window variant from src/index.ts. -/

structure RefreshState where
  times : List Rat
  frameRateData : List FRMeasurement
  frameRateStartTime : Rat
  lastUpdate : Rat
  measuring : Bool
deriving DecidableEq, Repr

def initRefreshState (t0 : Rat) : RefreshState :=
  { times := [], frameRateData := [], frameRateStartTime := t0,
    lastUpdate := 0, measuring := true }

/-- Pruning loop `while (times.length > 0 && times[0] <= now - 1000) times.shift()`. -/
def pruneOld (now : Rat) : List Rat → List Rat
  | [] => []
  | t :: ts => if t ≤ now - 1000 then pruneOld now ts else t :: ts

/-- One `__refreshFrameRateLoop` animation-frame callback at time `now`. -/
def refreshFrameRateLoop (st : RefreshState) (now : Rat) (dateNow : Int) : RefreshState :=
  if st.measuring then
    let times1 := pruneOld now (st.times ++ [now])
    if 500 ≤ now - st.lastUpdate then
      { st with
        times := times1,
        frameRateData := st.frameRateData ++
          [{ timestamp := dateNow,
             diffTimestamp := round (now - st.frameRateStartTime),
             frameRate := (times1.length : Int) }],
        lastUpdate := now }
    else { st with times := times1 }
  else st

def runRefresh (st : RefreshState) (frames : List (Rat × Int)) : RefreshState :=
  frames.foldl (fun s e => refreshFrameRateLoop s e.1 e.2) st

/-! ## File output as an explicit effect log

Writes either succeed or fail; `FailSet` lists the paths whose
`fs.writeFile` rejects.  Directory creation (`mkdir {recursive:true}`
on `results`) is modelled as always succeeding.  `Date.now()` values
used in backup filenames are passed in as `nowMs`.  `path.join` of
`'./results'` with a filename yields `results/<filename>`. -/

abbrev FailSet := List String

inductive FileData where
  | jsonOf (recs : List JRecord)
  | csvOf (content : String)
  | textOf (content : String)
deriving DecidableEq, Repr

inductive SaveEvent where
  | wrote (path : String) (data : FileData)
  | logged (msg : String)
deriving DecidableEq, Repr

def writtenPaths (evs : List SaveEvent) : List String :=
  evs.filterMap (fun e =>
    match e with
    | SaveEvent.wrote p _ => some p
    | SaveEvent.logged _ => none)

def isWriteEvent : SaveEvent → Bool
  | SaveEvent.wrote _ _ => true
  | SaveEvent.logged _ => false

/-- JS `s.endsWith(suffix)` as a suffix test on the character list. -/
def endsWithStr (s suffix : String) : Bool :=
  suffix.data.isSuffixOf s.data

def replaceFirstAux (pat repl : List Char) : List Char → List Char
  | [] => []
  | c :: cs =>
      if pat.isPrefixOf (c :: cs) then repl ++ (c :: cs).drop pat.length
      else c :: replaceFirstAux pat repl cs

/-- JS `s.replace(pat, repl)` with a string pattern: rewrite the first
occurrence only. -/
def replaceFirst (s pat repl : String) : String :=
  String.mk (replaceFirstAux pat.data repl.data s.data)

/-- Path building `createFilePath`: append the extension unless already present. -/
def createFilePath (filename : String) (extension : String) : String :=
  let fullFilename :=
    if extension ≠ "" ∧ ¬ endsWithStr filename extension
    then filename ++ extension else filename
  "results/" ++ fullFilename

/-! ### src/toFile.ts (the root variant) -/

/-- Root `saveToJson`: write the whole array as JSON; propagate a write
failure. The result is the thrown error (if any) plus the event log. -/
def rootSaveToJson (fs : FailSet) (data : List JRecord) (filename : String) :
    List SaveEvent × Option String :=
  let outputFile := createFilePath filename ".json"
  if fs.contains outputFile then ([], some "EIO")
  else ([SaveEvent.wrote outputFile (FileData.jsonOf data),
         SaveEvent.logged ("JSON data saved to " ++ outputFile)], none)

/-- Root `saveToCsv`: write the CSV content; propagate a write failure. -/
def rootSaveToCsv (fs : FailSet) (data : List JRecord) (filename : String) :
    List SaveEvent × Option String :=
  let outputFile := createFilePath filename ".csv"
  if fs.contains outputFile then ([], some "EIO")
  else ([SaveEvent.wrote outputFile (FileData.csvOf (saveToCsvContent data)),
         SaveEvent.logged ("CSV data saved to " ++ outputFile)], none)

/-- Root `createAndSaveToFiles`: `Promise.all` runs both saves (both
execute regardless of the other's outcome); any rejection is caught and
only logged — there is no fallback write in this variant. -/
def rootCreateAndSaveToFiles (fs : FailSet) (data : List JRecord) (filename : String) :
    List SaveEvent :=
  let j := rootSaveToJson fs data filename
  let c := rootSaveToCsv fs data filename
  j.1 ++ c.1 ++
    (if j.2.isSome ∨ c.2.isSome
     then [SaveEvent.logged "Error saving data to files:"] else [])

/-! ### src/measurers/toFile.ts (the measurers variant) -/

/-- Measurers `saveToJson`: on write failure, log, attempt a timestamped
backup write, and rethrow.  (The `!data` / empty-stringify guards never
fire for array inputs and are omitted.) -/
def mSaveToJson (fs : FailSet) (data : List JRecord) (filename : String) (nowMs : Int) :
    List SaveEvent × Option String :=
  let outputFile := createFilePath filename ".json"
  if ¬ fs.contains outputFile then
    ([SaveEvent.wrote outputFile (FileData.jsonOf data)], none)
  else
    let backupFile := outputFile ++ ".backup-" ++ toString nowMs ++ ".json"
    let evs := [SaveEvent.logged ("Error writing to " ++ outputFile ++ ":")]
    if ¬ fs.contains backupFile then
      (evs ++ [SaveEvent.wrote backupFile (FileData.jsonOf data),
               SaveEvent.logged ("Backup JSON saved to " ++ backupFile)], some "EIO")
    else
      (evs ++ [SaveEvent.logged "Failed to save backup JSON:"], some "EIO")

/-- Measurers `saveToCsv`: empty data writes a warning file instead
(whose own failure propagates); an empty first record throws; a CSV
write failure logs, attempts an emergency JSON backup, and rethrows.
JS `replace` rewrites the first occurrence of `.csv`; `String.replace`
rewrites all, which coincides for the single-extension paths used. -/
def mSaveToCsv (fs : FailSet) (data : List JRecord) (filename : String) (nowMs : Int) :
    List SaveEvent × Option String :=
  let outputFile := createFilePath filename ".csv"
  if data.isEmpty then
    let evs := [SaveEvent.logged
      ("No data or empty array provided to save to CSV: " ++ filename)]
    if fs.contains outputFile then (evs, some "EIO")
    else (evs ++ [SaveEvent.wrote outputFile
            (FileData.textOf "# WARNING: No data was available to save")], none)
  else if (csvHeaders data).isEmpty then
    ([SaveEvent.logged "Invalid data structure: empty object in data array"],
     some "Invalid data structure: empty object in data array")
  else if ¬ fs.contains outputFile then
    ([SaveEvent.wrote outputFile (FileData.csvOf (saveToCsvContent data))], none)
  else
    let backupFile := (replaceFirst outputFile ".csv" "") ++ ".emergency-" ++
      toString nowMs ++ ".json"
    let evs := [SaveEvent.logged ("Error writing CSV to " ++ outputFile ++ ":")]
    if ¬ fs.contains backupFile then
      (evs ++ [SaveEvent.wrote backupFile (FileData.jsonOf data),
               SaveEvent.logged ("Emergency JSON backup saved to " ++ backupFile)],
       some "EIO")
    else
      (evs ++ [SaveEvent.logged "Failed to save emergency backup:"], some "EIO")

inductive SaveFormat where
  | json
  | csv
deriving DecidableEq, Repr

def mInnerSave (fs : FailSet) (data : List JRecord) (filename : String)
    (fmt : SaveFormat) (nowMs : Int) : List SaveEvent × Option String :=
  match fmt with
  | SaveFormat.json => mSaveToJson fs data filename nowMs
  | SaveFormat.csv => mSaveToCsv fs data filename nowMs

def emergencyPath (filename : String) (nowMs : Int) : String :=
  "results/emergency-" ++ filename ++ "-" ++ toString nowMs ++ ".json"

/-- The warning logged for empty data before saving. -/
def warnEvents (data : List JRecord) (filename : String) : List SaveEvent :=
  if data.isEmpty
  then [SaveEvent.logged ("Warning: Empty or null data when saving " ++ filename)]
  else []

/-- Measurers `createAndSaveToFiles` (format defaults to `'csv'` at the
call sites): catch any save failure, log it, and attempt a last-resort
emergency JSON write whose own failure is also caught.  The `Except`
result mirrors the JS function's possible exceptions: the catch-all
makes every branch return normally. -/
def mCreateAndSaveToFiles (fs : FailSet) (data : List JRecord) (filename : String)
    (fmt : SaveFormat) (nowMs : Int) : Except String (List SaveEvent) :=
  match mInnerSave fs data filename fmt nowMs with
  | (innerEvs, none) => Except.ok (warnEvents data filename ++ innerEvs)
  | (innerEvs, some _) =>
      if ¬ fs.contains (emergencyPath filename nowMs) then
        Except.ok (warnEvents data filename ++ innerEvs ++
          [SaveEvent.logged "Error saving data to files:"] ++
          [SaveEvent.wrote (emergencyPath filename nowMs) (FileData.jsonOf data),
           SaveEvent.logged ("Emergency data saved to " ++ emergencyPath filename nowMs)])
      else
        Except.ok (warnEvents data filename ++ innerEvs ++
          [SaveEvent.logged "Error saving data to files:"] ++
          [SaveEvent.logged "CRITICAL: Even emergency save failed:"])

/-! ## formatTimestamp (toFile.ts): `format(date, 'dd-MM-yy::HH:mm:ss')` -/

structure DateParts where
  day : Nat
  month : Nat
  year2 : Nat
  hour : Nat
  minute : Nat
  second : Nat
deriving DecidableEq, Repr

def pad2 (n : Nat) : String :=
  if n < 10 then "0" ++ toString n else toString n

def formatTimestamp (d : DateParts) : String :=
  pad2 d.day ++ "-" ++ pad2 d.month ++ "-" ++ pad2 d.year2 ++ "::" ++
  pad2 d.hour ++ ":" ++ pad2 d.minute ++ ":" ++ pad2 d.second

/-! ## The FrameRateMeasurer Node-side harness (measurers/frameRate.ts)

`retrieveCurrentMeasurements` drains the in-page buffer into
`this.measurements` and, whenever the accumulated length is a positive
multiple of 50, saves an intermediate snapshot; `stop` drains once more,
sorts by timestamp, and saves the final list.  Writes are modelled as
succeeding (their failure handling is covered by the save model above);
`written` records every persisted (filename, snapshot) pair in order. -/

structure FRMState where
  measurements : List FRMeasurement
  written : List (String × List FRMeasurement)
  running : Bool
deriving DecidableEq, Repr

def initFRMState : FRMState :=
  { measurements := [], written := [], running := true }

/-- Comparator `(a, b) => a.timestamp - b.timestamp`: sort ascending by timestamp.
The JS engine's sort is stable (ES2019); a stable insertion sort models
it. -/
def byTimestamp (a b : FRMeasurement) : Prop := a.timestamp ≤ b.timestamp

instance : DecidableRel byTimestamp := fun a b => Int.decLe a.timestamp b.timestamp

/-- One `retrieveCurrentMeasurements` call receiving `batch` from the
browser.  An empty batch changes nothing; otherwise the batch is
appended and, if the new total is a multiple of 50, all measurements so
far are saved to `<filename>-intermediate`. -/
def retrieveCurrent (filename : String) (st : FRMState) (batch : List FRMeasurement) :
    FRMState :=
  if batch.isEmpty then st
  else if (st.measurements ++ batch).length % 50 == 0 then
    { st with measurements := st.measurements ++ batch,
              written := st.written ++
                [(filename ++ "-intermediate", st.measurements ++ batch)] }
  else { st with measurements := st.measurements ++ batch }

/-- Stopping: `stop` drains a final batch, sorts by timestamp, and saves the final
list (if non-empty). -/
def frmStop (filename : String) (st : FRMState) (finalBatch : List FRMeasurement) :
    FRMState :=
  if ¬ st.running then st
  else if (List.insertionSort byTimestamp
      (retrieveCurrent filename st finalBatch).measurements).isEmpty then
    { measurements := List.insertionSort byTimestamp
        (retrieveCurrent filename st finalBatch).measurements,
      written := (retrieveCurrent filename st finalBatch).written,
      running := false }
  else
    { measurements := List.insertionSort byTimestamp
        (retrieveCurrent filename st finalBatch).measurements,
      written := (retrieveCurrent filename st finalBatch).written ++
        [(filename, List.insertionSort byTimestamp
          (retrieveCurrent filename st finalBatch).measurements)],
      running := false }

/-- A whole measurement run: the interval delivers `batches` one by one,
then `stop` drains `finalBatch`. -/
def frmRun (filename : String) (batches : List (List FRMeasurement))
    (finalBatch : List FRMeasurement) : FRMState :=
  frmStop filename (batches.foldl (retrieveCurrent filename) initFRMState) finalBatch

/-! ## profileSwitchingToSameChannels (scenario)

The scenario (measure.ts:334 and its scenario-file variant) alternates
clicking `sidebarItem_off-topic` and `sidebarItem_town-square`, waiting
a fixed 2000 ms after each click before measuring and appending.  `env k`
is the result of the k-th `measureMemoryUsage` call.  (The measure.ts
variant additionally records a `gcCount` field and takes a `runGC`
flag; the properties claimed here are unaffected.) -/

inductive ScenarioAction where
  | click (elementId : String)
  | wait (ms : Nat)
  | appendRecord (m : MemoryMetrics)
deriving DecidableEq, Repr

def recordsOf (tr : List ScenarioAction) : List MemoryMetrics :=
  tr.filterMap (fun a =>
    match a with
    | ScenarioAction.appendRecord m => some m
    | _ => none)

/-- One switch cycle `i`: click off-topic, wait, measure+append with
`channelName: 'off-topic'`; then the same for town-square. -/
def sameChannelsCycle (env : Nat → MemSample) (start : Int) (i : Nat) :
    List ScenarioAction :=
  let off := env (2 * i)
  let town := env (2 * i + 1)
  [ ScenarioAction.click "sidebarItem_off-topic",
    ScenarioAction.wait 2000,
    ScenarioAction.appendRecord
      { heapTotalMB := off.heapTotalMB, timestamp := off.timestamp,
        diffTimestamp := some (off.timestamp - start),
        channelName := some "off-topic" },
    ScenarioAction.click "sidebarItem_town-square",
    ScenarioAction.wait 2000,
    ScenarioAction.appendRecord
      { heapTotalMB := town.heapTotalMB, timestamp := town.timestamp,
        diffTimestamp := some (town.timestamp - start),
        channelName := some "town-square" } ]

/-- The for-loop, as an accumulator recursion over the remaining count. -/
def sameChannelsGo (env : Nat → MemSample) (start : Int) :
    Nat → Nat → List ScenarioAction → List ScenarioAction
  | 0, _, acc => acc
  | k + 1, i, acc => sameChannelsGo env start k (i + 1) (acc ++ sameChannelsCycle env start i)

/-- The scenario: throws when either required channel is missing from
the sidebar, otherwise runs `numberOfSwitches` cycles. -/
def profileSwitchingToSameChannels (env : Nat → MemSample) (start : Int)
    (offTopicExists townSquareExists : Bool) (numberOfSwitches : Nat) :
    Except String (List ScenarioAction) :=
  if offTopicExists ∧ townSquareExists then
    Except.ok (sameChannelsGo env start numberOfSwitches 0 [])
  else Except.error "Required channels not found in sidebar"

/-- The claim-shaped normal form of the scenario trace: the cycles for
`i = 0, …, n-1` in order. -/
def sameChannelsSpecTrace (env : Nat → MemSample) (start : Int) (n : Nat) :
    List ScenarioAction :=
  (List.range n).flatMap (sameChannelsCycle env start)

/-! ## The main test loop (src/index.ts)

`main` iterates over the comma-separated `--test` list; each known test
is awaited to completion (its scenario persists its results before
returning), a per-test `catch` logs a failure and continues, and an
unknown test name only logs.  Await-based control flow is sequential,
so the run is a concatenation of per-test event blocks. `env idx` says
how the idx-th requested test goes: completing with some interior
events, or failing partway through them. -/

inductive RunEvent where
  | scenarioStarted (test : String)
  | interior (test : String) (k : Nat)
  | resultsSaved (test : String)
  | errorLogged (test : String)
  | unknownTestLogged (test : String)
deriving DecidableEq, Repr

inductive ScenarioOutcome where
  | completed (bodySteps : Nat)
  | failedPartway (stepsDone : Nat)
deriving DecidableEq, Repr

def knownTests : List String := ["scroll-two-channels", "switch-each-channel"]

def isFailedOutcome : ScenarioOutcome → Bool
  | ScenarioOutcome.completed _ => false
  | ScenarioOutcome.failedPartway _ => true

/-- The event block of one loop iteration. A completed scenario's block
ends with the persistence of its results; a failed one ends with the
catch-handler's log; an unknown test name only logs. -/
def runTest (t : String) (o : ScenarioOutcome) : List RunEvent :=
  if knownTests.contains t then
    match o with
    | ScenarioOutcome.completed body =>
        RunEvent.scenarioStarted t ::
          (List.range body).map (RunEvent.interior t) ++ [RunEvent.resultsSaved t]
    | ScenarioOutcome.failedPartway done =>
        RunEvent.scenarioStarted t ::
          (List.range done).map (RunEvent.interior t) ++ [RunEvent.errorLogged t]
  else [RunEvent.unknownTestLogged t]

/-- The `for (const testType of testsToRun)` loop with its
`hasFailures` flag. -/
def mainLoop (env : Nat → ScenarioOutcome) :
    List String → Nat → List RunEvent × Bool
  | [], _ => ([], false)
  | t :: ts, idx =>
      let blk := runTest t (env idx)
      let failedHere := knownTests.contains t && isFailedOutcome (env idx)
      let rest := mainLoop env ts (idx + 1)
      (blk ++ rest.1, failedHere || rest.2)

/-- The grouped normal form: one block per requested test, in request
order, laid end to end. -/
def mainSpecBlocks (env : Nat → ScenarioOutcome) (tests : List String) :
    List (List RunEvent) :=
  tests.enum.map (fun p => runTest p.2 (env p.1))

/-! ## Theorems -/

/-- The bare sample decorated with a `diffTimestamp`, as the sampling
loops append it. -/
def sampleWithDiff (s : MemSample) (diff : Int) : MemoryMetrics :=
  { heapTotalMB := s.heapTotalMB, timestamp := s.timestamp, diffTimestamp := some diff }

/-- The sampling loop starting from a non-empty accumulator appends each
later sample with `diffTimestamp` measured from the accumulator's head. -/
lemma monitor_foldl_cons (samples : List MemSample) :
    ∀ (m0 : MemoryMetrics) (rest : List MemoryMetrics),
      samples.foldl monitorStep (m0 :: rest) =
        m0 :: (rest ++ samples.map (fun s =>
          sampleWithDiff s (s.timestamp - m0.timestamp))) := by
  induction samples with
  | nil => intro m0 rest; simp
  | cons s ss ih =>
      intro m0 rest
      have hstep : monitorStep (m0 :: rest) s =
          m0 :: (rest ++ [sampleWithDiff s (s.timestamp - m0.timestamp)]) := by
        simp [monitorStep, firstTimestamp, sampleWithDiff]
      rw [List.foldl_cons, hstep, ih]
      simp

/-- The loop's output in specification shape. -/
lemma monitorMemoryUsage_eq_spec (samples : List MemSample) :
    monitorMemoryUsage samples = monitorSpec samples := by
  cases samples with
  | nil => rfl
  | cons s0 ss =>
      have hstep : monitorStep [] s0 =
          [{ heapTotalMB := s0.heapTotalMB, timestamp := s0.timestamp,
             diffTimestamp := some 0 }] := by
        simp [monitorStep]
      unfold monitorMemoryUsage
      rw [List.foldl_cons, hstep, monitor_foldl_cons]
      simp [monitorSpec, sampleWithDiff]

/-- C9: in every list produced by the periodic memory-sampling loop
(`monitorMemoryUsage` in measure.ts, `measureMemoryUsagePeriodically` in
measurers/memory.ts, which share the same append logic), the first
record's diffTimestamp is 0 and every record's diffTimestamp equals its
timestamp minus the first record's timestamp. -/
theorem C9_monitor_diff_from_first (samples : List MemSample) :
    monitorMemoryUsage samples = monitorSpec samples ∧
    ∀ (i : Nat) (h : i < (monitorMemoryUsage samples).length),
      ((monitorMemoryUsage samples).get ⟨i, h⟩).diffTimestamp =
        some (((monitorMemoryUsage samples).get ⟨i, h⟩).timestamp -
          firstTimestamp (monitorMemoryUsage samples)) ∧
      (i = 0 → ((monitorMemoryUsage samples).get ⟨i, h⟩).diffTimestamp = some 0) := by
  refine ⟨monitorMemoryUsage_eq_spec samples, ?_⟩
  rw [monitorMemoryUsage_eq_spec samples]
  cases samples with
  | nil => intro i h; simp [monitorSpec] at h
  | cons s0 ss =>
      intro i h
      cases i with
      | zero => simp [monitorSpec, firstTimestamp]
      | succ j =>
          have hj : j < ss.length := by
            simpa [monitorSpec] using h
          constructor
          · simp [monitorSpec, firstTimestamp, List.get_eq_getElem]
          · intro hcontra; exact absurd hcontra (Nat.succ_ne_zero j)

/-- Witness for C9 at a concrete three-sample run. -/
theorem C9_witness :
    (monitorMemoryUsage [⟨10, 100⟩, ⟨11, 250⟩, ⟨12, 400⟩] =
      monitorSpec [⟨10, 100⟩, ⟨11, 250⟩, ⟨12, 400⟩]) ∧
    ((monitorMemoryUsage [⟨10, 100⟩, ⟨11, 250⟩, ⟨12, 400⟩]).get
        ⟨2, by decide⟩).diffTimestamp = some 300 := by
  have h := C9_monitor_diff_from_first [⟨10, 100⟩, ⟨11, 250⟩, ⟨12, 400⟩]
  refine ⟨h.1, ?_⟩
  have h2 := (h.2 2 (by decide)).1
  rw [h2]; decide

/-- C10: when `JSHeapTotalSize` is absent from the metrics list,
`measureMemoryUsage` still returns a record, whose `heapTotalMB` is 0. -/
theorem C10_measure_absent_metric (metrics : List PerfMetric) (nowMs : Int)
    (habsent : ∀ m ∈ metrics, m.name ≠ "JSHeapTotalSize") :
    measureMemoryUsage metrics nowMs = { heapTotalMB := 0, timestamp := nowMs } := by
  have hfind : metrics.find? (fun m => m.name == "JSHeapTotalSize") = none := by
    apply List.find?_eq_none.mpr
    intro m hm
    simpa using habsent m hm
  unfold measureMemoryUsage
  rw [hfind]
  simp [roundTo2]

/-- Witness for C10 on a metrics list without `JSHeapTotalSize`. -/
theorem C10_witness :
    measureMemoryUsage [⟨"Nodes", 5⟩, ⟨"Documents", 2⟩] 123 =
      { heapTotalMB := 0, timestamp := 123 } :=
  C10_measure_absent_metric [⟨"Nodes", 5⟩, ⟨"Documents", 2⟩] 123 (by decide)

/-- The off-topic record appended in cycle `i`. -/
def offTopicRecord (env : Nat → MemSample) (start : Int) (i : Nat) : MemoryMetrics :=
  { heapTotalMB := (env (2 * i)).heapTotalMB, timestamp := (env (2 * i)).timestamp,
    diffTimestamp := some ((env (2 * i)).timestamp - start),
    channelName := some "off-topic" }

/-- The town-square record appended in cycle `i`. -/
def townSquareRecord (env : Nat → MemSample) (start : Int) (i : Nat) : MemoryMetrics :=
  { heapTotalMB := (env (2 * i + 1)).heapTotalMB, timestamp := (env (2 * i + 1)).timestamp,
    diffTimestamp := some ((env (2 * i + 1)).timestamp - start),
    channelName := some "town-square" }

/-- The record list in claim shape: for each cycle the off-topic record
followed by the town-square record, cycles in order. -/
def sameChannelsRecords (env : Nat → MemSample) (start : Int) (n : Nat) :
    List MemoryMetrics :=
  (List.range n).flatMap (fun i =>
    [offTopicRecord env start i, townSquareRecord env start i])

/-- The loop accumulator unrolls to the cycles for `i, i+1, …, i+k-1`. -/
lemma sameChannelsGo_eq (env : Nat → MemSample) (start : Int) :
    ∀ (k i : Nat) (acc : List ScenarioAction),
      sameChannelsGo env start k i acc =
        acc ++ (List.range k).flatMap (fun j => sameChannelsCycle env start (i + j)) := by
  intro k
  induction k with
  | zero => intro i acc; simp [sameChannelsGo]
  | succ k ih =>
      intro i acc
      rw [sameChannelsGo, ih (i + 1) (acc ++ sameChannelsCycle env start i)]
      rw [List.range_succ_eq_map, List.flatMap_cons, List.flatMap_map]
      have harg : (fun j => sameChannelsCycle env start (i + Nat.succ j)) =
          (fun j => sameChannelsCycle env start (i + 1 + j)) := by
        funext j
        congr 1
        omega
      rw [harg]
      simp [List.append_assoc]

lemma recordsOf_append (l1 l2 : List ScenarioAction) :
    recordsOf (l1 ++ l2) = recordsOf l1 ++ recordsOf l2 := by
  simp [recordsOf]

lemma recordsOf_cycle (env : Nat → MemSample) (start : Int) (i : Nat) :
    recordsOf (sameChannelsCycle env start i) =
      [offTopicRecord env start i, townSquareRecord env start i] := rfl

lemma recordsOf_specTrace (env : Nat → MemSample) (start : Int) (n : Nat) :
    recordsOf (sameChannelsSpecTrace env start n) = sameChannelsRecords env start n := by
  unfold sameChannelsSpecTrace sameChannelsRecords
  induction (List.range n) with
  | nil => rfl
  | cons j js ih =>
      rw [List.flatMap_cons, List.flatMap_cons, recordsOf_append, ih, recordsOf_cycle]

/-- C7: with both required channels present, the scenario runs exactly
`n` click-wait-measure-append cycles, appending `2 * n` records that
alternate `off-topic` then `town-square`, each with `diffTimestamp`
relative to the scenario start; with either channel missing it throws. -/
theorem C7_switch_same_channels (env : Nat → MemSample) (start : Int) (n : Nat) :
    profileSwitchingToSameChannels env start true true n =
      Except.ok (sameChannelsSpecTrace env start n) ∧
    recordsOf (sameChannelsSpecTrace env start n) = sameChannelsRecords env start n ∧
    (sameChannelsRecords env start n).length = 2 * n ∧
    ∀ offEx townEx : Bool, ¬ (offEx = true ∧ townEx = true) →
      profileSwitchingToSameChannels env start offEx townEx n =
        Except.error "Required channels not found in sidebar" := by
  refine ⟨?_, recordsOf_specTrace env start n, ?_, ?_⟩
  · unfold profileSwitchingToSameChannels
    rw [if_pos ⟨rfl, rfl⟩, sameChannelsGo_eq]
    simp [sameChannelsSpecTrace]
  · unfold sameChannelsRecords
    rw [List.length_flatMap]
    have hconst : (List.length ∘ fun i =>
        [offTopicRecord env start i, townSquareRecord env start i]) = fun _ => 2 := by
      funext i
      rfl
    rw [hconst, List.map_const', List.sum_replicate]
    simp [List.length_range, smul_eq_mul, Nat.mul_comm]
  · intro offEx townEx hne
    unfold profileSwitchingToSameChannels
    rw [if_neg]
    intro hcontra
    exact hne ⟨hcontra.1, hcontra.2⟩

/-- Witness for C7 at `n = 2` with a concrete sample environment. -/
theorem C7_witness :
    profileSwitchingToSameChannels (fun k => ⟨(k : Rat), 100 * (k : Int)⟩) 50 true true 2 =
      Except.ok (sameChannelsSpecTrace (fun k => ⟨(k : Rat), 100 * (k : Int)⟩) 50 2) ∧
    (sameChannelsRecords (fun k => ⟨(k : Rat), 100 * (k : Int)⟩) 50 2).length = 2 * 2 ∧
    profileSwitchingToSameChannels (fun k => ⟨(k : Rat), 100 * (k : Int)⟩) 50 false true 2 =
      Except.error "Required channels not found in sidebar" := by
  have h := C7_switch_same_channels (fun k => ⟨(k : Rat), 100 * (k : Int)⟩) 50 2
  exact ⟨h.1, h.2.2.1, h.2.2.2 false true (by simp)⟩

/-- The test loop from any starting index is the concatenation of the
per-test blocks, and the failure flag is the disjunction of the per-test
failures. -/
lemma mainLoop_blocks (env : Nat → ScenarioOutcome) :
    ∀ (tests : List String) (idx : Nat),
      (mainLoop env tests idx).1 =
        ((List.enumFrom idx tests).map (fun p => runTest p.2 (env p.1))).flatten ∧
      (mainLoop env tests idx).2 =
        (List.enumFrom idx tests).any
          (fun p => knownTests.contains p.2 && isFailedOutcome (env p.1)) := by
  intro tests
  induction tests with
  | nil => intro idx; simp [mainLoop]
  | cons t ts ih =>
      intro idx
      have h := ih (idx + 1)
      simp [mainLoop, h.1, h.2, List.enumFrom]

/-- C8: the requested tests execute in single sequential control flow:
the run's event trace is the per-test blocks laid end to end in request
order (so no two scenarios interleave), every completed scenario's block
ends with the persistence of its results (hence it precedes the next
block's first event), and the failure flag aggregates the per-test
outcomes. -/
theorem C8_sequential_scenarios (env : Nat → ScenarioOutcome) (tests : List String) :
    (mainLoop env tests 0).1 = (mainSpecBlocks env tests).flatten ∧
    (∀ t n, knownTests.contains t = true →
      (runTest t (ScenarioOutcome.completed n)).getLast? =
        some (RunEvent.resultsSaved t)) ∧
    (mainLoop env tests 0).2 =
      tests.enum.any (fun p => knownTests.contains p.2 && isFailedOutcome (env p.1)) := by
  refine ⟨(mainLoop_blocks env tests 0).1, ?_, (mainLoop_blocks env tests 0).2⟩
  intro t n h
  rw [runTest, if_pos h]
  exact List.getLast?_concat _

/-- Witness for C8 on a concrete two-test run whose first scenario
completes and whose second fails partway. -/
theorem C8_witness :
    (mainLoop (fun i => if i = 0 then ScenarioOutcome.completed 2
        else ScenarioOutcome.failedPartway 1)
      ["scroll-two-channels", "switch-each-channel"] 0).1 =
      (mainSpecBlocks (fun i => if i = 0 then ScenarioOutcome.completed 2
          else ScenarioOutcome.failedPartway 1)
        ["scroll-two-channels", "switch-each-channel"]).flatten ∧
    (runTest "scroll-two-channels" (ScenarioOutcome.completed 2)).getLast? =
      some (RunEvent.resultsSaved "scroll-two-channels") := by
  have h := C8_sequential_scenarios
    (fun i => if i = 0 then ScenarioOutcome.completed 2
      else ScenarioOutcome.failedPartway 1)
    ["scroll-two-channels", "switch-each-channel"]
  exact ⟨h.1, h.2.1 "scroll-two-channels" 2 (by decide)⟩

/-- While measuring, a run of bare animation frames only increments the
frame counter. -/
lemma runFPS_frames (f : Nat) :
    ∀ (st : FPSState), st.measuring = true →
      runFPS st (List.replicate f FPSEvent.frame) =
        { st with frameCount := st.frameCount + f } := by
  induction f with
  | zero => intro st h; simp [runFPS]
  | succ f ih =>
      intro st h
      rw [List.replicate_succ]
      have hstep : fpsStep st FPSEvent.frame = { st with frameCount := st.frameCount + 1 } := by
        simp [fpsStep, countFrame, h]
      rw [runFPS, List.foldl_cons, ← runFPS, hstep, ih _ (by simp [h])]
      simp
      omega

/-- The `__calculateFPS` traces refine `fpsSampleSpec`: every emitted sample
is the frame count carried into the segment divided by the elapsed time
since the previous sample, scaled and rounded, and the counter leaves
each sample at 0. -/
lemma runFPS_spec :
    ∀ (trace : List (Nat × Rat × Int)) (st : FPSState), st.measuring = true →
      (runFPS st (toFPSEvents trace)).frameRateData =
        st.frameRateData ++
          fpsSampleSpec st.frameRateStartTime st.frameCount st.lastFrameTimestamp trace ∧
      (runFPS st (toFPSEvents trace)).measuring = true ∧
      (runFPS st (toFPSEvents trace)).frameRateStartTime = st.frameRateStartTime ∧
      (trace ≠ [] → (runFPS st (toFPSEvents trace)).frameCount = 0) := by
  intro trace
  induction trace with
  | nil => intro st h; simp [toFPSEvents, runFPS, fpsSampleSpec, h]
  | cons e rest ih =>
      intro st h
      obtain ⟨f, now, dateNow⟩ := e
      have hsplit : toFPSEvents ((f, now, dateNow) :: rest) =
          (List.replicate f FPSEvent.frame ++ [FPSEvent.calc now dateNow]) ++
            toFPSEvents rest := by
        simp [toFPSEvents]
      have hmid : runFPS st (List.replicate f FPSEvent.frame ++ [FPSEvent.calc now dateNow]) =
          { st with
            frameRateData := st.frameRateData ++
              [{ timestamp := dateNow,
                 diffTimestamp := round (now - st.frameRateStartTime),
                 frameRate := round (((st.frameCount + f : Nat) : Rat) /
                   (now - st.lastFrameTimestamp) * 1000) }],
            frameCount := 0,
            lastFrameTimestamp := now } := by
        rw [runFPS, List.foldl_append, ← runFPS, ← runFPS, runFPS_frames f st h]
        simp [runFPS, fpsStep, calculateFPS, h]
      rw [hsplit, runFPS, List.foldl_append, ← runFPS, ← runFPS, hmid]
      have hrest := ih { st with
          frameRateData := st.frameRateData ++
            [{ timestamp := dateNow,
               diffTimestamp := round (now - st.frameRateStartTime),
               frameRate := round (((st.frameCount + f : Nat) : Rat) /
                 (now - st.lastFrameTimestamp) * 1000) }],
          frameCount := 0,
          lastFrameTimestamp := now } (by simp [h])
      refine ⟨?_, hrest.2.1, hrest.2.2.1, fun _ => ?_⟩
      · rw [hrest.1]
        simp [fpsSampleSpec]
      · cases Decidable.em (rest = []) with
        | inl hnil => subst hnil; simp [toFPSEvents, runFPS]
        | inr hne => exact hrest.2.2.2 hne

/-- C3 counterexample: the `__refreshFrameRateLoop` variant
(src/index.ts) does not report frames-since-previous-sample divided by
elapsed time.  With callbacks at 0 ms and 600 ms, two frames elapse in
600 ms (claimed value `round(2 / 600 * 1000) = 3`) but the recorded
sample is 2 (the sliding-window size), and the frame buffer is not
reset to zero after the sample. -/
theorem C3_counterexample :
    (runRefresh (initRefreshState 0) [(0, 0), (600, 600)]).frameRateData =
      [{ timestamp := 600, diffTimestamp := 600, frameRate := 2 }] ∧
    (2 : Int) ≠ round (((2 : Nat) : Rat) / 600 * 1000) ∧
    (runRefresh (initRefreshState 0) [(0, 0), (600, 600)]).times = [0, 600] := by
  refine ⟨?_, ?_, ?_⟩
  · norm_num [runRefresh, refreshFrameRateLoop, initRefreshState, pruneOld, round_eq]
  · norm_num [round_eq]
  · norm_num [runRefresh, refreshFrameRateLoop, initRefreshState, pruneOld]

/-- C3 amended: the `__calculateFPS`-based loop (measurers/frameRate.ts)
does satisfy the claim — every sample equals the frames counted since
the previous sample divided by the elapsed time since it, scaled to
per-second and rounded, with the counter reset to zero — while the
`__refreshFrameRateLoop` variant instead reports the size of a trailing
one-second window. -/
theorem C3_fps_samples (t0 : Rat) (trace : List (Nat × Rat × Int)) :
    (runFPS (initFPSState t0) (toFPSEvents trace)).frameRateData =
      fpsSampleSpec t0 0 t0 trace ∧
    (trace ≠ [] → (runFPS (initFPSState t0) (toFPSEvents trace)).frameCount = 0) := by
  have h := runFPS_spec trace (initFPSState t0) rfl
  exact ⟨by simpa [initFPSState] using h.1, h.2.2.2⟩

/-- Witness for C3 on a concrete two-sample trace: 30 frames in the
first 500 ms (60 fps), 28 in the next 500 ms (56 fps). -/
theorem C3_witness :
    (runFPS (initFPSState 0) (toFPSEvents [(30, 500, 500), (28, 1000, 1000)])).frameRateData =
      fpsSampleSpec 0 0 0 [(30, 500, 500), (28, 1000, 1000)] ∧
    fpsSampleSpec 0 0 0 [(30, 500, 500), (28, 1000, 1000)] =
      [{ timestamp := 500, diffTimestamp := 500, frameRate := 60 },
       { timestamp := 1000, diffTimestamp := 1000, frameRate := 56 }] ∧
    (runFPS (initFPSState 0) (toFPSEvents [(30, 500, 500), (28, 1000, 1000)])).frameCount = 0 := by
  have h := C3_fps_samples 0 [(30, 500, 500), (28, 1000, 1000)]
  exact ⟨h.1, by norm_num [fpsSampleSpec, round_eq], h.2 (by simp)⟩

/-- C1 counterexample: `saveToCsv` takes its headers from the first
record only, so the field `"b"` of the second record has no column and
its value 2 is lost — the file content is `"a\n1\n1"`.  This refutes
the claim's clause that no field value present in any record is lost. -/
theorem C1_counterexample :
    csvLossData ≠ [] ∧
    (∃ r ∈ csvLossData, ∃ kv ∈ r, kv.1 ∉ csvHeaders csvLossData) ∧
    saveToCsvContent csvLossData = "a\n1\n1" := by
  refine ⟨by decide, ⟨[("a", Value.num 1), ("b", Value.num 2)], by decide,
    ("b", Value.num 2), by decide, by decide⟩, by decide⟩

/-- C1 amended: for every non-empty record list, the CSV content is one
header row — the FIRST record's fields — followed by exactly one data
row per record in list order, each row holding, for every header field,
that record's rendered value; field values under keys outside the first
record's key list are omitted. -/
theorem C1_csv_rows (data : List JRecord) (r0 : JRecord) (rest : List JRecord)
    (hdata : data = r0 :: rest) :
    saveToCsvContent data =
      String.intercalate "\n"
        (String.intercalate "," (csvHeaders data) :: csvDataRows data) ∧
    csvHeaders data = recordKeys r0 ∧
    (csvDataRows data).length = data.length ∧
    ∀ (i : Nat) (hi : i < data.length),
      (csvDataRows data).get ⟨i, by simpa [csvDataRows] using hi⟩ =
        String.intercalate "," ((csvHeaders data).map
          (fun k => renderCell (lookupField (data.get ⟨i, hi⟩) k))) := by
  refine ⟨rfl, ?_, ?_, ?_⟩
  · rw [hdata]
    rfl
  · simp [csvDataRows]
  · intro i hi
    simp [csvDataRows, csvRow, List.get_eq_getElem]

/-- Witness for C1's amended statement on a concrete two-record list. -/
theorem C1_witness :
    csvHeaders csvLossData = recordKeys [("a", Value.num 1)] ∧
    (csvDataRows csvLossData).length = csvLossData.length ∧
    (csvDataRows csvLossData).get ⟨1, by decide⟩ =
      String.intercalate "," ((csvHeaders csvLossData).map
        (fun k => renderCell (lookupField (csvLossData.get ⟨1, by decide⟩) k))) := by
  have h := C1_csv_rows csvLossData [("a", Value.num 1)]
    [[("a", Value.num 1), ("b", Value.num 2)]] rfl
  exact ⟨h.2.1, h.2.2.1, h.2.2.2 1 (by decide)⟩

lemma lookupField_append (r s : JRecord) (k : String) :
    lookupField (r ++ s) k = (lookupField r k).or (lookupField s k) := by
  unfold lookupField
  rw [List.find?_append]
  cases r.find? (fun p => p.1 == k) <;> simp

lemma lookupField_eq_none (r : JRecord) (k : String) (h : k ∉ recordKeys r) :
    lookupField r k = none := by
  unfold lookupField
  have hfind : r.find? (fun p => p.1 == k) = none := by
    apply List.find?_eq_none.mpr
    intro p hp hbeq
    have hpk : p.1 = k := by simpa using hbeq
    exact h (hpk ▸ List.mem_map_of_mem (fun x => x.1) hp)
  rw [hfind]
  rfl

lemma lookupField_isSome_of_mem (r : JRecord) (k : String) (h : k ∈ recordKeys r) :
    (lookupField r k).isSome := by
  have hfind : (r.find? (fun p => p.1 == k)).isSome := by
    rw [List.find?_isSome]
    obtain ⟨p, hp, hpk⟩ := List.mem_map.mp h
    exact ⟨p, hp, by simpa using hpk⟩
  obtain ⟨x, hx⟩ := Option.isSome_iff_exists.mp hfind
  unfold lookupField
  rw [hx]
  rfl

lemma setField_of_notMem (r : JRecord) (k : String) (v : Value)
    (h : k ∉ recordKeys r) : setField r k v = r ++ [(k, v)] := by
  unfold setField
  rw [if_neg]
  intro hc
  obtain ⟨p, hp, hpk⟩ := List.any_eq_true.mp hc
  exact h ((by simpa using hpk : p.1 = k) ▸ List.mem_map_of_mem (fun x => x.1) hp)

/-- The record whose persisted JSON shape the claim mis-describes. -/
def c2Record : JRecord :=
  [("heapTotalMB", Value.num 10), ("timestamp", Value.num 2000)]

/-- C2 counterexample: the scenarios persist
`convertTimestampsToSeconds(measurements)`, not the in-memory list, and
the conversion ADDS a `timestamp_sec` field (and a `diffTimestamp_sec`
field when `diffTimestamp` is present) to every written record, so the
serialized field set differs from the in-memory record's. -/
theorem C2_counterexample :
    jsonFieldKeys (convertRecord c2Record) ≠ recordKeys c2Record ∧
    "timestamp_sec" ∈ jsonFieldKeys (convertRecord c2Record) ∧
    "timestamp_sec" ∉ recordKeys c2Record ∧
    convertTimestampsToSeconds [c2Record] = [convertRecord c2Record] := by
  refine ⟨by decide, by decide, by decide, rfl⟩

/-- C2 amended: each written record is the in-memory record with all its
original fields unchanged, extended by a derived `timestamp_sec`
(= timestamp/1000 to three decimals) and, when `diffTimestamp` is a
number, a derived `diffTimestamp_sec`; when `diffTimestamp` is absent
the added `diffTimestamp_sec` is `undefined` (and is then dropped by
`JSON.stringify`); no other field is added, removed or transformed. -/
theorem C2_convert_adds_seconds (r : JRecord) (q : Rat)
    (ht : lookupField r "timestamp" = some (Value.num q))
    (h1 : "timestamp_sec" ∉ recordKeys r)
    (h2 : "diffTimestamp_sec" ∉ recordKeys r) :
    recordKeys (convertRecord r) =
      recordKeys r ++ ["timestamp_sec", "diffTimestamp_sec"] ∧
    (∀ k, k ∈ recordKeys r → lookupField (convertRecord r) k = lookupField r k) ∧
    lookupField (convertRecord r) "timestamp_sec" =
      some (Value.num (roundTo3 (q / 1000))) ∧
    (∀ qd : Rat, lookupField r "diffTimestamp" = some (Value.num qd) →
      lookupField (convertRecord r) "diffTimestamp_sec" =
        some (Value.num (roundTo3 (qd / 1000)))) ∧
    (lookupField r "diffTimestamp" = none →
      lookupField (convertRecord r) "diffTimestamp_sec" = some Value.undef) ∧
    convertTimestampsToSeconds [r] = [convertRecord r] := by
  have e1 : setField r "timestamp_sec" (tsSecValue r) =
      r ++ [("timestamp_sec", tsSecValue r)] := setField_of_notMem r _ _ h1
  have h2' : "diffTimestamp_sec" ∉ recordKeys (r ++ [("timestamp_sec", tsSecValue r)]) := by
    simp only [recordKeys, List.map_append, List.mem_append]
    rintro (hc | hc)
    · exact h2 hc
    · simp at hc
  have e2 : convertRecord r =
      (r ++ [("timestamp_sec", tsSecValue r)]) ++
        [("diffTimestamp_sec", diffSecValue r)] := by
    unfold convertRecord
    rw [e1, setField_of_notMem _ _ _ h2']
  have hnone1 : lookupField r "timestamp_sec" = none := lookupField_eq_none r _ h1
  have hnone2 : lookupField r "diffTimestamp_sec" = none := lookupField_eq_none r _ h2
  have hsingle : lookupField [("timestamp_sec", tsSecValue r)] "diffTimestamp_sec" = none := rfl
  refine ⟨?_, ?_, ?_, ?_, ?_, rfl⟩
  · rw [e2]
    simp [recordKeys]
  · intro k hk
    obtain ⟨v, hv⟩ := Option.isSome_iff_exists.mp (lookupField_isSome_of_mem r k hk)
    rw [e2, lookupField_append, lookupField_append, hv]
    rfl
  · have hts : tsSecValue r = Value.num (roundTo3 (q / 1000)) := by
      unfold tsSecValue
      rw [ht]
    rw [e2, lookupField_append, lookupField_append, hnone1, hts]
    rfl
  · intro qd hd
    have hds : diffSecValue r = Value.num (roundTo3 (qd / 1000)) := by
      unfold diffSecValue
      rw [hd]
    rw [e2, lookupField_append, lookupField_append, hnone2, hsingle, hds]
    rfl
  · intro hd
    have hds : diffSecValue r = Value.undef := by
      unfold diffSecValue
      rw [hd]
    rw [e2, lookupField_append, lookupField_append, hnone2, hsingle, hds]
    rfl

/-- Witness for C2's amended statement on a concrete record. -/
theorem C2_witness :
    recordKeys (convertRecord c2Record) =
      recordKeys c2Record ++ ["timestamp_sec", "diffTimestamp_sec"] ∧
    lookupField (convertRecord c2Record) "timestamp_sec" =
      some (Value.num (roundTo3 ((2000 : Rat) / 1000))) ∧
    lookupField (convertRecord c2Record) "diffTimestamp_sec" = some Value.undef := by
  have h := C2_convert_adds_seconds c2Record 2000 (by decide) (by decide) (by decide)
  exact ⟨h.1, h.2.2.1, h.2.2.2.2.1 (by decide)⟩

/-- A simple one-record list used for the save-path scenarios. -/
def sampleRecords : List JRecord := [[("a", Value.num 1)]]

/-- C4 counterexample: the measurers `createAndSaveToFiles` — the one
all scenarios call, with its format argument defaulted to `'csv'` —
writes exactly one file, a CSV; no JSON array file is produced, so the
output artifacts do not comprise both formats. -/
theorem C4_counterexample :
    mCreateAndSaveToFiles [] sampleRecords "profile" SaveFormat.csv 0 =
      Except.ok [SaveEvent.wrote "results/profile.csv"
        (FileData.csvOf (saveToCsvContent sampleRecords))] ∧
    endsWithStr "results/profile.csv" ".json" = false := by
  exact ⟨rfl, by decide⟩

/-- C4 amended: when no write fails, the root `createAndSaveToFiles`
writes both a JSON array file and a CSV file under `results/` named by
the caller-supplied filename; the measurers variant writes exactly one
file in the requested format (CSV by default at every scenario call
site), in the same directory and under the same name. -/
theorem C4_output_files (data : List JRecord) (filename : String) (nowMs : Int)
    (hne : data ≠ []) (hheads : csvHeaders data ≠ [])
    (hj : endsWithStr filename ".json" = false)
    (hc : endsWithStr filename ".csv" = false) :
    rootCreateAndSaveToFiles [] data filename =
      [SaveEvent.wrote ("results/" ++ (filename ++ ".json")) (FileData.jsonOf data),
       SaveEvent.logged ("JSON data saved to " ++ ("results/" ++ (filename ++ ".json"))),
       SaveEvent.wrote ("results/" ++ (filename ++ ".csv"))
         (FileData.csvOf (saveToCsvContent data)),
       SaveEvent.logged ("CSV data saved to " ++ ("results/" ++ (filename ++ ".csv")))] ∧
    mCreateAndSaveToFiles [] data filename SaveFormat.csv nowMs =
      Except.ok [SaveEvent.wrote ("results/" ++ (filename ++ ".csv"))
        (FileData.csvOf (saveToCsvContent data))] ∧
    mCreateAndSaveToFiles [] data filename SaveFormat.json nowMs =
      Except.ok [SaveEvent.wrote ("results/" ++ (filename ++ ".json"))
        (FileData.jsonOf data)] := by
  have hpj : createFilePath filename ".json" = "results/" ++ (filename ++ ".json") := by
    unfold createFilePath
    rw [if_pos ⟨by decide, by simp [hj]⟩]
  have hpc : createFilePath filename ".csv" = "results/" ++ (filename ++ ".csv") := by
    unfold createFilePath
    rw [if_pos ⟨by decide, by simp [hc]⟩]
  have hie : data.isEmpty = false := by
    cases data with
    | nil => exact absurd rfl hne
    | cons a l => rfl
  have hhe : (csvHeaders data).isEmpty = false := by
    cases hcv : csvHeaders data with
    | nil => exact absurd hcv hheads
    | cons a l => rfl
  refine ⟨?_, ?_, ?_⟩
  · simp [rootCreateAndSaveToFiles, rootSaveToJson, rootSaveToCsv, hpj, hpc]
  · simp [mCreateAndSaveToFiles, mInnerSave, mSaveToCsv, hpc, hie, hhe, warnEvents]
  · simp [mCreateAndSaveToFiles, mInnerSave, mSaveToJson, hpj, hie, warnEvents]

/-- Witness for C4's amended statement at a concrete timestamped
filename. -/
theorem C4_witness :
    rootCreateAndSaveToFiles [] sampleRecords "memory-01-02-25::03:04:05" =
      [SaveEvent.wrote "results/memory-01-02-25::03:04:05.json"
         (FileData.jsonOf sampleRecords),
       SaveEvent.logged "JSON data saved to results/memory-01-02-25::03:04:05.json",
       SaveEvent.wrote "results/memory-01-02-25::03:04:05.csv"
         (FileData.csvOf (saveToCsvContent sampleRecords)),
       SaveEvent.logged "CSV data saved to results/memory-01-02-25::03:04:05.csv"] ∧
    mCreateAndSaveToFiles [] sampleRecords "memory-01-02-25::03:04:05" SaveFormat.csv 0 =
      Except.ok [SaveEvent.wrote "results/memory-01-02-25::03:04:05.csv"
        (FileData.csvOf (saveToCsvContent sampleRecords))] := by
  have h := C4_output_files sampleRecords "memory-01-02-25::03:04:05" 0
    (by decide) (by decide) (by decide) (by decide)
  exact ⟨h.1, h.2.1⟩

/-- C6 counterexample: when both writes of the root
`createAndSaveToFiles` fail, the failure is only logged — no emergency
fallback write of the data as JSON (nor any other write) is attempted,
refuting the claim's "for every failure" clause. -/
theorem C6_counterexample :
    rootCreateAndSaveToFiles ["results/f.json", "results/f.csv"] sampleRecords "f" =
      [SaveEvent.logged "Error saving data to files:"] ∧
    (rootCreateAndSaveToFiles ["results/f.json", "results/f.csv"] sampleRecords "f").filter
      (fun e => isWriteEvent e) = [] := by
  exact ⟨rfl, rfl⟩

/-- C6 amended: both `createAndSaveToFiles` variants catch every save
failure and return normally, logging the error; the measurers variant
additionally attempts a last-resort emergency JSON write of the data
(whose own failure is also caught and logged), while the root variant
only logs. -/
theorem C6_never_propagates (fs : FailSet) (data : List JRecord) (filename : String)
    (fmt : SaveFormat) (nowMs : Int) :
    (∃ evs, mCreateAndSaveToFiles fs data filename fmt nowMs = Except.ok evs) ∧
    ((mInnerSave fs data filename fmt nowMs).2.isSome = true →
      ∃ evs, mCreateAndSaveToFiles fs data filename fmt nowMs = Except.ok evs ∧
        SaveEvent.logged "Error saving data to files:" ∈ evs ∧
        (SaveEvent.wrote (emergencyPath filename nowMs) (FileData.jsonOf data) ∈ evs ∨
         SaveEvent.logged "CRITICAL: Even emergency save failed:" ∈ evs)) ∧
    (((rootSaveToJson fs data filename).2.isSome ∨
        (rootSaveToCsv fs data filename).2.isSome) →
      SaveEvent.logged "Error saving data to files:" ∈
        rootCreateAndSaveToFiles fs data filename) := by
  have hroot : ((rootSaveToJson fs data filename).2.isSome ∨
      (rootSaveToCsv fs data filename).2.isSome) →
      SaveEvent.logged "Error saving data to files:" ∈
        rootCreateAndSaveToFiles fs data filename := by
    intro hfail
    show SaveEvent.logged "Error saving data to files:" ∈
      (rootSaveToJson fs data filename).1 ++ (rootSaveToCsv fs data filename).1 ++
        (if (rootSaveToJson fs data filename).2.isSome ∨
            (rootSaveToCsv fs data filename).2.isSome
         then [SaveEvent.logged "Error saving data to files:"] else [])
    rw [if_pos hfail]
    simp
  rcases hp : mInnerSave fs data filename fmt nowMs with ⟨innerEvs, o⟩
  cases o with
  | none =>
      have hmain : mCreateAndSaveToFiles fs data filename fmt nowMs =
          Except.ok (warnEvents data filename ++ innerEvs) := by
        unfold mCreateAndSaveToFiles
        rw [hp]
      refine ⟨⟨_, hmain⟩, ?_, hroot⟩
      intro hsome
      simp at hsome
  | some e =>
      by_cases hemer : fs.contains (emergencyPath filename nowMs) = true
      · have hmem : emergencyPath filename nowMs ∈ fs := by simpa using hemer
        have hmain : mCreateAndSaveToFiles fs data filename fmt nowMs =
            Except.ok (warnEvents data filename ++ innerEvs ++
              [SaveEvent.logged "Error saving data to files:"] ++
              [SaveEvent.logged "CRITICAL: Even emergency save failed:"]) := by
          unfold mCreateAndSaveToFiles
          rw [hp]
          simp [hmem]
        refine ⟨⟨_, hmain⟩, ?_, hroot⟩
        intro _
        exact ⟨_, hmain, by simp, Or.inr (by simp)⟩
      · have hmem : emergencyPath filename nowMs ∉ fs := by simpa using hemer
        have hmain : mCreateAndSaveToFiles fs data filename fmt nowMs =
            Except.ok (warnEvents data filename ++ innerEvs ++
              [SaveEvent.logged "Error saving data to files:"] ++
              [SaveEvent.wrote (emergencyPath filename nowMs) (FileData.jsonOf data),
               SaveEvent.logged ("Emergency data saved to " ++
                 emergencyPath filename nowMs)]) := by
          unfold mCreateAndSaveToFiles
          rw [hp]
          simp [hmem]
        refine ⟨⟨_, hmain⟩, ?_, hroot⟩
        intro _
        exact ⟨_, hmain, by simp, Or.inl (by simp)⟩

/-- Witness for C6 on a failing CSV write: the measurers variant still
returns normally and attempts the emergency JSON write. -/
theorem C6_witness :
    ∃ evs, mCreateAndSaveToFiles ["results/w.csv"] sampleRecords "w" SaveFormat.csv 0 =
      Except.ok evs ∧
      SaveEvent.logged "Error saving data to files:" ∈ evs ∧
      (SaveEvent.wrote (emergencyPath "w" 0) (FileData.jsonOf sampleRecords) ∈ evs ∨
       SaveEvent.logged "CRITICAL: Even emergency save failed:" ∈ evs) :=
  (C6_never_propagates ["results/w.csv"] sampleRecords "w" SaveFormat.csv 0).2.1 (by decide)

/-- Behaviour of a single retrieval: the batch is always appended, the
running flag is untouched, and at most one intermediate snapshot —
all measurements so far, at a positive multiple of 50 — is saved. -/
lemma retrieveCurrent_spec (f : String) (st : FRMState) (b : List FRMeasurement) :
    (retrieveCurrent f st b).measurements = st.measurements ++ b ∧
    (retrieveCurrent f st b).running = st.running ∧
    ((retrieveCurrent f st b).written = st.written ∨
      ((retrieveCurrent f st b).written =
          st.written ++ [(f ++ "-intermediate", st.measurements ++ b)] ∧
        (st.measurements ++ b).length % 50 = 0 ∧ b ≠ [])) := by
  unfold retrieveCurrent
  by_cases hb : b.isEmpty = true
  · have hbe : b = [] := by simpa using hb
    subst hbe
    simp
  · have hbne : b ≠ [] := by simpa using hb
    rw [if_neg (by simp [hb])]
    by_cases hm : ((st.measurements ++ b).length % 50 == 0) = true
    · rw [if_pos hm]
      exact ⟨rfl, rfl, Or.inr ⟨rfl, by simpa using hm, hbne⟩⟩
    · rw [if_neg hm]
      exact ⟨rfl, rfl, Or.inl rfl⟩

/-- A prefix taken from `l` is also a take of `l ++ m`. -/
lemma take_extend {α : Type} (l m : List α) (k : Nat) :
    ∃ j, (l ++ m).take j = l.take k := by
  by_cases h : k ≤ l.length
  · exact ⟨k, List.take_append_of_le_length h⟩
  · refine ⟨l.length, ?_⟩
    rw [List.take_left, List.take_of_length_le (le_of_not_le h)]

/-- Folding retrievals over a batch sequence: the measurements are the
concatenation of all batches, the flag is preserved, and every file
written along the way is an intermediate snapshot that is a non-empty
prefix of the accumulated records with length a multiple of 50. -/
lemma retrieve_foldl (f : String) :
    ∀ (batches : List (List FRMeasurement)) (st : FRMState),
      (batches.foldl (retrieveCurrent f) st).measurements =
        st.measurements ++ batches.flatMap id ∧
      (batches.foldl (retrieveCurrent f) st).running = st.running ∧
      ∀ w ∈ (batches.foldl (retrieveCurrent f) st).written,
        w ∈ st.written ∨
          (w.1 = f ++ "-intermediate" ∧ ∃ k,
            w.2 = (st.measurements ++ batches.flatMap id).take k ∧
            w.2.length % 50 = 0 ∧ w.2 ≠ []) := by
  intro batches
  induction batches with
  | nil =>
      intro st
      exact ⟨by simp, rfl, fun w hw => Or.inl hw⟩
  | cons b bs ih =>
      intro st
      rw [List.foldl_cons]
      obtain ⟨hms, hrun, hwr⟩ := retrieveCurrent_spec f st b
      obtain ⟨ims, irun, iwr⟩ := ih (retrieveCurrent f st b)
      have hflat : (b :: bs).flatMap id = b ++ bs.flatMap id := by simp
      refine ⟨?_, ?_, ?_⟩
      · rw [ims, hms, hflat, List.append_assoc]
      · rw [irun, hrun]
      · intro w hw
        rcases iwr w hw with hin | ⟨hname, k, hk, hlen, hne⟩
        · rcases hwr with heq | ⟨heq, hmod, hbne⟩
          · rw [heq] at hin
            exact Or.inl hin
          · rw [heq] at hin
            rcases List.mem_append.mp hin with h1 | h2
            · exact Or.inl h1
            · have hw2 : w = (f ++ "-intermediate", st.measurements ++ b) := by
                simpa using h2
              refine Or.inr ⟨by rw [hw2], (st.measurements ++ b).length, ?_, ?_, ?_⟩
              · rw [hw2, hflat, ← List.append_assoc, List.take_left]
              · rw [hw2]
                simpa using hmod
              · rw [hw2]
                intro hc
                exact hbne (List.append_eq_nil.mp hc).2
        · refine Or.inr ⟨hname, k, ?_, hlen, hne⟩
          rw [hk, hms, List.append_assoc, ← hflat]

/-- C5 counterexample: delivering a batch of 50 samples makes
`retrieveCurrentMeasurements` save an intermediate snapshot while the
run is still in progress, and `stop` then saves the same records again
in the final file — records are persisted twice, the first time before
the run completes. -/
def frBatch50 : List FRMeasurement :=
  (List.range 50).map (fun i => ⟨(i : Int), (i : Int), 60⟩)

theorem C5_counterexample :
    ([frBatch50].foldl (retrieveCurrent "framerate") initFRMState).written =
      [("framerate-intermediate", frBatch50)] ∧
    ([frBatch50].foldl (retrieveCurrent "framerate") initFRMState).running = true ∧
    (frmRun "framerate" [frBatch50] []).written =
      [("framerate-intermediate", frBatch50), ("framerate", frBatch50)] := by
  refine ⟨by decide, by decide, by decide⟩

/-- C5 amended: all of a run's records are persisted at the end of the
run in one final timestamp-sorted write containing every accumulated
record exactly once (up to reordering); in addition, whenever the
accumulated count reaches a positive multiple of 50 during retrieval,
an intermediate snapshot — a prefix of the records retrieved so far —
is written before the run completes, so records may be persisted more
than once. -/
theorem C5_run_persistence (f : String) (batches : List (List FRMeasurement))
    (fb : List FRMeasurement) :
    (frmRun f batches fb).measurements =
      List.insertionSort byTimestamp (batches.flatMap id ++ fb) ∧
    ((frmRun f batches fb).measurements).Perm (batches.flatMap id ++ fb) ∧
    (batches.flatMap id ++ fb ≠ [] →
      (frmRun f batches fb).written.getLast? =
        some (f, List.insertionSort byTimestamp (batches.flatMap id ++ fb))) ∧
    ∀ w ∈ (frmRun f batches fb).written,
      w = (f, List.insertionSort byTimestamp (batches.flatMap id ++ fb)) ∨
        (w.1 = f ++ "-intermediate" ∧ ∃ k,
          w.2 = (batches.flatMap id ++ fb).take k ∧
          w.2.length % 50 = 0 ∧ w.2 ≠ []) := by
  obtain ⟨mms, mrun, mwr⟩ := retrieve_foldl f batches initFRMState
  obtain ⟨sms, srun, swr⟩ :=
    retrieveCurrent_spec f (batches.foldl (retrieveCurrent f) initFRMState) fb
  have hms1 : (retrieveCurrent f (batches.foldl (retrieveCurrent f) initFRMState)
      fb).measurements = batches.flatMap id ++ fb := by
    rw [sms, mms]
    simp [initFRMState]
  have hrun1 : (batches.foldl (retrieveCurrent f) initFRMState).running = true := by
    rw [mrun]
    rfl
  have hmidwr : ∀ w ∈ (batches.foldl (retrieveCurrent f) initFRMState).written,
      w.1 = f ++ "-intermediate" ∧ ∃ k,
        w.2 = (batches.flatMap id ++ fb).take k ∧ w.2.length % 50 = 0 ∧ w.2 ≠ [] := by
    intro w hw
    rcases mwr w hw with hin | ⟨hname, k, hk, hlen, hne⟩
    · simp [initFRMState] at hin
    · refine ⟨hname, ?_⟩
      rw [show initFRMState.measurements ++ batches.flatMap id = batches.flatMap id
        from by simp [initFRMState]] at hk
      obtain ⟨j, hj⟩ := take_extend (batches.flatMap id) fb k
      exact ⟨j, by rw [hk, hj], hlen, hne⟩
  have hst1wr : ∀ w ∈ (retrieveCurrent f (batches.foldl (retrieveCurrent f)
      initFRMState) fb).written,
      w.1 = f ++ "-intermediate" ∧ ∃ k,
        w.2 = (batches.flatMap id ++ fb).take k ∧ w.2.length % 50 = 0 ∧ w.2 ≠ [] := by
    intro w hw
    rcases swr with heq | ⟨heq, hmod, hfbne⟩
    · rw [heq] at hw
      exact hmidwr w hw
    · rw [heq] at hw
      rcases List.mem_append.mp hw with h1 | h2
      · exact hmidwr w h1
      · have hw2 : w = (f ++ "-intermediate",
            (batches.foldl (retrieveCurrent f) initFRMState).measurements ++ fb) := by
          simpa using h2
        have hall : (batches.foldl (retrieveCurrent f) initFRMState).measurements ++ fb =
            batches.flatMap id ++ fb := by
          rw [mms]
          simp [initFRMState]
        refine ⟨by rw [hw2], (batches.flatMap id ++ fb).length, ?_, ?_, ?_⟩
        · rw [hw2]
          simp [hall, List.take_length]
        · rw [hw2]
          simp only [hall] at hmod ⊢
          simpa using hmod
        · rw [hw2]
          simp only [hall]
          intro hc
          exact hfbne (List.append_eq_nil.mp hc).2
  unfold frmRun frmStop
  rw [if_neg (by rw [hrun1]; simp), hms1]
  by_cases hall : batches.flatMap id ++ fb = []
  · have hse : (List.insertionSort byTimestamp (batches.flatMap id ++ fb)).isEmpty = true := by
      rw [hall]
      rfl
    rw [if_pos hse]
    refine ⟨rfl, ?_, fun hc => absurd hall hc, ?_⟩
    · exact List.perm_insertionSort byTimestamp (batches.flatMap id ++ fb)
    · intro w hw
      exact Or.inr (hst1wr w hw)
  · have hsne : List.insertionSort byTimestamp (batches.flatMap id ++ fb) ≠ [] := by
      intro hc
      have hperm := List.perm_insertionSort byTimestamp (batches.flatMap id ++ fb)
      rw [hc] at hperm
      exact hall hperm.nil_eq.symm
    rw [if_neg (by simpa using hsne)]
    refine ⟨rfl, ?_, fun _ => ?_, ?_⟩
    · exact List.perm_insertionSort byTimestamp (batches.flatMap id ++ fb)
    · exact List.getLast?_concat _
    · intro w hw
      rcases List.mem_append.mp hw with h1 | h2
      · exact Or.inr (hst1wr w h1)
      · exact Or.inl (by simpa using h2)

/-- Witness for C5 on a two-record run. -/
theorem C5_witness :
    ([[(⟨5, 5, 60⟩ : FRMeasurement)]].flatMap id ++ [⟨3, 3, 58⟩] ≠ []) ∧
    (frmRun "fr" [[⟨5, 5, 60⟩]] [⟨3, 3, 58⟩]).written.getLast? =
      some ("fr", List.insertionSort byTimestamp
        ([[(⟨5, 5, 60⟩ : FRMeasurement)]].flatMap id ++ [⟨3, 3, 58⟩])) := by
  refine ⟨by decide, ?_⟩
  exact (C5_run_persistence "fr" [[⟨5, 5, 60⟩]] [⟨3, 3, 58⟩]).2.2.1 (by decide)

end Profiler
